import Mathlib

/-!
Shallow embedding of `mmpose/models/heads/heatmap_heads/cpm_head.py` (class
`CPMHead`), the multi-stage heatmap head of Convolutional Pose Machines.

Modelling conventions:
* A batched tensor is a `List T` of per-sample tensors, `T` abstract; the
  neural-network layers built by the head are kept symbolically (`Layer`,
  `TorchModule`) and executed through an abstract semantics `ModuleSem`
  standing for the learned weights.
* Fallible Python code (raised `ValueError` / `AssertionError` /
  `RuntimeError` / `IndexError`) is modelled with `Except String`.
* Keypoint weights are integer matrices (`List (List Int)`); the only
  operation the head performs on them is the elementwise test `> 0`.
* `torch.stack` on the per-sample ground-truth heatmaps is the list of those
  heatmaps (it fails on an empty batch); `torch.cat` on the per-sample weight
  matrices is list concatenation; `to_numpy` is the identity.
-/

/-- Configuration dict passed to `build_upsample_layer` in
`CPMHead._make_deconv_layers` (type `deconv`, i.e. `ConvTranspose2d`). -/
structure DeconvCfg where
  in_channels : Nat
  out_channels : Nat
  kernel_size : Nat
  stride : Nat
  padding : Nat
  output_padding : Nat
  bias : Bool
deriving Repr, DecidableEq

/-- One layer appended by `CPMHead._make_deconv_layers`: the deconv
(upsample) layer, `nn.BatchNorm2d(num_features=out_channels)`, or
`nn.ReLU(inplace=True)`. -/
inductive Layer where
  | deconv (cfg : DeconvCfg)
  | batchNorm2d (num_features : Nat)
  | relu
deriving Repr, DecidableEq

/-- A module owned by the head: `nn.Identity()`, the `nn.Sequential(*layers)`
returned by `_make_deconv_layers`, or the 1x1 `Conv2d` built by
`build_conv_layer` for the final layers. -/
inductive TorchModule where
  | identity
  | sequentialLayers (layers : List Layer)
  | conv2d (in_channels out_channels kernel_size : Nat)
deriving Repr, DecidableEq

/-- Abstract semantics of the built layers on batched tensors (`List T`):
the learned weights of deconv/batch-norm/conv layers are outside the head's
logic, so each layer denotes some function of its configuration. -/
structure ModuleSem (T : Type) where
  layer : Layer → List T → List T
  conv : Nat → Nat → Nat → List T → List T

/-- Run a `TorchModule` on a batched tensor: `nn.Identity` is the identity,
`nn.Sequential` applies its layers in order, `Conv2d` applies the conv
semantics. -/
def TorchModule.run (sem : ModuleSem T) : TorchModule → List T → List T
  | .identity, x => x
  | .sequentialLayers ls, x => ls.foldl (fun y l => sem.layer l y) x
  | .conv2d ic oc k, x => sem.conv ic oc k x

/-- A per-stage keypoint loss evaluator, as called in `CPMHead.loss`:
`loss_func(pred_heatmaps, gt_heatmaps, keypoint_weights)`. -/
abbrev LossEvaluator (T L : Type) := List T → List T → List (List Int) → L

/-- The `loss` argument of `CPMHead.__init__`: a single config or a list of
per-stage configs (`MultiConfig`). Configs are identified with the evaluators
they build, since building happens in the external registry. -/
inductive MultiConfig (E : Type) where
  | single (cfg : E)
  | list (cfgs : List E)

/-- The built `self.loss_module`: one module, or an `nn.Sequential` of
per-stage modules (this is what `isinstance(self.loss_module, nn.Sequential)`
distinguishes in `CPMHead.loss`). -/
inductive LossModule (E : Type) where
  | single (m : E)
  | sequential (ms : List E)

/-- Modelled from the spec: `MODELS.build` (external registry, not among the
sources) builds one evaluator from a single config and an `nn.Sequential` of
evaluators from a list of configs. -/
def MODELS.build : MultiConfig E → LossModule E
  | .single c => .single c
  | .list cs => .sequential cs

/-- `mmengine.data.PixelData`; `PixelData()` is the empty container, and the
head stores heatmaps in its `heatmaps` field. -/
structure PixelData (T : Type) where
  heatmaps : Option T
deriving Repr, DecidableEq

/-- The data-sample container used by `loss` and `predict`: ground-truth
fields (`gt_fields.heatmaps`, `gt_instance_labels.keypoint_weights`),
decoded predictions (`pred_instances`), the `pred_fields` attribute, and the
misspelled `pred_fileds` key whose membership `predict` tests. -/
structure PoseDataSample (T C : Type) where
  gt_heatmaps : T
  keypoint_weights : List (List Int)
  pred_instances : Option C
  pred_fields : Option (PixelData T)
  pred_fileds : Option (PixelData T)
deriving Repr, DecidableEq

/-- The `test_cfg` dict of `predict`; `test_cfg.get('output_heatmaps', False)`
reads the optional key with default `False`. -/
structure TestCfg where
  output_heatmaps : Option Bool
deriving Repr, DecidableEq

/-- Message of the `ValueError` raised in `__init__` when a loss list's
length differs from `num_stages`. -/
def lossLenMsg (lossLen num_stages : Nat) : String :=
  "The length of loss_module(" ++ toString lossLen ++ ") did not match " ++
    "`num_stages`(" ++ toString num_stages ++ ")"

/-- Message of the `ValueError` raised in `__init__` when
`deconv_out_channels` and `deconv_kernel_sizes` have unmatched lengths. -/
def unmatchedSeqMsg (deconv_out_channels : List Nat)
    (deconv_kernel_sizes : Option (List Nat)) : String :=
  "\"deconv_out_channels\" and \"deconv_kernel_sizes\" should be integer " ++
    "sequences with the same length. Got unmatched values " ++
    toString deconv_out_channels ++ " and " ++ toString deconv_kernel_sizes

/-- Message of the `ValueError` raised in `_make_deconv_layers` on an
unsupported kernel size (the source concatenates the two f-strings without a
space, hence `fordeconvlutional`). -/
def unsupportedKernelMsg (kernel_size : Nat) (className : String) : String :=
  "Unsupported kernel size " ++ toString kernel_size ++
    " fordeconvlutional layers in " ++ className

/-- Message of the `AssertionError` raised in `forward` when the number of
feature maps differs from `num_stages`. -/
def forwardAssertMsg (className : String) : String :=
  "The length of feature maps did not match the `num_stages` in " ++ className

/-- Modelled from the spec: message of the unavailable-capability error that
`BaseHead.decode` (base class, not among the sources) raises when no decoder
is bound. -/
def decoderUnsetMsg (className : String) : String :=
  "The decoder has not been set in " ++ className ++ "."

/-- The loop body of `CPMHead._make_deconv_layers`: walk the zipped
`(out_channels, kernel_size)` pairs threading `in_channels`, appending for
each pair the deconv layer (stride 2, padding/output-padding from the kernel
size), a batch-norm layer and a ReLU; an unsupported kernel size raises. -/
def _make_deconv_layers_loop (className : String) :
    Nat → List (Nat × Nat) → Except String (List Layer)
  | _, [] => .ok []
  | in_channels, (out_channels, kernel_size) :: rest =>
    let build := fun (padding output_padding : Nat) =>
      let cfg : DeconvCfg :=
        { in_channels := in_channels
          out_channels := out_channels
          kernel_size := kernel_size
          stride := 2
          padding := padding
          output_padding := output_padding
          bias := false }
      match _make_deconv_layers_loop className out_channels rest with
      | .ok tail =>
        .ok (Layer.deconv cfg :: Layer.batchNorm2d out_channels ::
          Layer.relu :: tail)
      | .error e => .error e
    if kernel_size = 4 then build 1 0
    else if kernel_size = 3 then build 1 1
    else if kernel_size = 2 then build 0 0
    else .error (unsupportedKernelMsg kernel_size className)

/-- `CPMHead._make_deconv_layers`: build one upsampling branch,
`nn.Sequential(*layers)`. -/
def _make_deconv_layers (className : String) (in_channels : Nat)
    (layer_out_channels layer_kernel_sizes : List Nat) :
    Except String TorchModule := do
  let layers ← _make_deconv_layers_loop className in_channels
    (layer_out_channels.zip layer_kernel_sizes)
  pure (TorchModule.sequentialLayers layers)

/-- The state `CPMHead.__init__` builds: stage count, channel counts, the
built loss module, the optional decoder (abstracted as a per-sample decoding
function), and the two per-stage module lists. -/
structure CPMHead (T C L : Type) where
  num_stages : Nat
  in_channels : Nat
  out_channels : Nat
  loss_module : LossModule (LossEvaluator T L)
  decoder : Option (T → C)
  multi_deconv_layers : List TorchModule
  multi_final_layers : List TorchModule

/-- The first validation of `CPMHead.__init__`:
`if isinstance(loss, list) and len(loss) != num_stages: raise ValueError`. -/
def lossLenCheck (loss : MultiConfig E) (num_stages : Nat) :
    Except String Unit :=
  match loss with
  | .list l =>
    if l.length ≠ num_stages then .error (lossLenMsg l.length num_stages)
    else .ok ()
  | .single _ => .ok ()

/-- The deconv-building phase of `CPMHead.__init__`: when
`deconv_out_channels` is truthy (not `None` and nonempty) require
`deconv_kernel_sizes` of the same length and build one branch per stage,
rebinding `in_channels` to the last deconv width; otherwise every branch is
`nn.Identity()`. Returns the branch list and the rebound `in_channels`. -/
def build_deconv_stages (num_stages in_channels : Nat)
    (deconv_out_channels deconv_kernel_sizes : Option (List Nat)) :
    Except String (List TorchModule × Nat) :=
  match deconv_out_channels with
  | some ocs =>
    if ocs.isEmpty then
      .ok (List.replicate num_stages TorchModule.identity, in_channels)
    else
      match deconv_kernel_sizes with
      | none => .error (unmatchedSeqMsg ocs none)
      | some ks =>
        if ocs.length ≠ ks.length then
          .error (unmatchedSeqMsg ocs (some ks))
        else do
          let branches ← (List.range num_stages).mapM
            (fun _ => _make_deconv_layers "CPMHead" in_channels ocs ks)
          pure (branches, ocs.getLast?.getD in_channels)
  | none => .ok (List.replicate num_stages TorchModule.identity, in_channels)

/-- The final-layer phase of `CPMHead.__init__`: one 1x1 `Conv2d` per stage
when `has_final_layer`, else one `nn.Identity()` per stage. -/
def build_final_stages (num_stages in_channels out_channels : Nat)
    (has_final_layer : Bool) : List TorchModule :=
  if has_final_layer then
    List.replicate num_stages (TorchModule.conv2d in_channels out_channels 1)
  else
    List.replicate num_stages TorchModule.identity

/-- `CPMHead.__init__`: validate the loss list length, build the loss
module, bind the decoder, build `num_stages` deconv branches (identity when
`deconv_out_channels` is `None` or empty, per Python truthiness), rebind
`in_channels` to the last deconv width, and build the per-stage final 1x1
conv layers (identity when `has_final_layer` is false). -/
def CPMHead.__init__ (in_channels out_channels num_stages : Nat)
    (deconv_out_channels deconv_kernel_sizes : Option (List Nat))
    (has_final_layer : Bool) (loss : MultiConfig (LossEvaluator T L))
    (decoder : Option (T → C)) : Except String (CPMHead T C L) := do
  lossLenCheck loss num_stages
  let loss_module := MODELS.build loss
  let (multi_deconv_layers, in_channels2) ←
    build_deconv_stages num_stages in_channels deconv_out_channels
      deconv_kernel_sizes
  pure
    { num_stages := num_stages
      in_channels := in_channels
      out_channels := out_channels
      loss_module := loss_module
      decoder := decoder
      multi_deconv_layers := multi_deconv_layers
      multi_final_layers :=
        build_final_stages num_stages in_channels2 out_channels has_final_layer }

/-- `CPMHead.forward`: assert `len(feats) == num_stages`, then for each
stage `i` apply the stage's deconv branch to `feats[i]` and the stage's
final layer to the result, collecting the outputs in stage order. -/
def CPMHead.forward (self : CPMHead T C L) (sem : ModuleSem T)
    (feats : List (List T)) : Except String (List (List T)) :=
  if feats.length = self.num_stages then
    .ok ((List.range self.num_stages).map (fun i =>
      let y := TorchModule.run sem (self.multi_deconv_layers.getD i .identity)
        (feats.getD i [])
      TorchModule.run sem (self.multi_final_layers.getD i .identity) y))
  else
    .error (forwardAssertMsg "CPMHead")

/-- The Python dict of loss components, in insertion order; values are loss
tensors or the float accuracy. -/
inductive LossVal (L A : Type) where
  | tensor (x : L)
  | float (a : A)
deriving Repr, DecidableEq

/-- A Python dict with string keys, as an insertion-ordered association
list. -/
abbrev LossDict (L A : Type) := List (String × LossVal L A)

/-- Python `k in d`. -/
def dictContains (d : LossDict L A) (k : String) : Bool :=
  d.any (fun p => p.1 == k)

/-- Python `d[k]` (as an `Option`, `none` for a missing key). -/
def dictGet (d : LossDict L A) (k : String) : Option (LossVal L A) :=
  (d.find? (fun p => p.1 == k)).map (fun p => p.2)

/-- Python `d[k] = v`: rebind an existing key in place, or append a new
binding at the end (dicts preserve insertion order). -/
def dictSet (d : LossDict L A) (k : String) (v : LossVal L A) : LossDict L A :=
  if dictContains d k then
    d.map (fun p => if p.1 == k then (k, v) else p)
  else
    d ++ [(k, v)]

/-- Python `d['loss_kpt'] + loss_i` as used by `losses['loss_kpt'] += loss_i`
in `CPMHead.loss`; at that point the stored value is always a loss tensor,
and the remaining cases are unreachable there. -/
def lossvalAdd [Add L] (v : Option (LossVal L A)) (x : L) : LossVal L A :=
  match v with
  | some (.tensor y) => .tensor (y + x)
  | some (.float a) => .float a
  | none => .tensor x

/-- The evaluator that computes stage `i`'s loss term in `CPMHead.loss`:
`self.loss_module[i]` when the module is an `nn.Sequential`, the shared
`self.loss_module` otherwise. -/
def stage_loss_func [Inhabited L] (lm : LossModule (LossEvaluator T L))
    (i : Nat) : LossEvaluator T L :=
  match lm with
  | .sequential ms => ms.getD i (fun _ _ _ => default)
  | .single m => m

/-- The accumulation loop of `CPMHead.loss` over `range(num_stages)`, with
`t i` the stage-`i` loss term `loss_func(pred_heatmaps[i], gt, weights)`:
the first iteration binds `losses['loss_kpt']`, later ones add to it. -/
def loss_accumulate [Add L] (t : Nat → L) (num_stages : Nat) : LossDict L A :=
  (List.range num_stages).foldl
    (fun losses i =>
      if dictContains losses "loss_kpt" then
        dictSet losses "loss_kpt" (lossvalAdd (dictGet losses "loss_kpt") (t i))
      else
        dictSet losses "loss_kpt" (.tensor (t i)))
    []

/-- `CPMHead.loss`: run `forward`, stack the per-sample ground-truth
heatmaps and concatenate the per-sample keypoint weights, accumulate the
per-stage losses into `losses['loss_kpt']`, compute the PCK accuracy of the
final stage masked to the keypoints of positive weight, and record it as
`losses['acc_pose']`. The accuracy function itself is an external
collaborator, passed in as `pose_pck_accuracy`. -/
def CPMHead.loss [Add L] [Inhabited L] (self : CPMHead T C L)
    (sem : ModuleSem T)
    (pose_pck_accuracy : List T → List T → List (List Bool) → A)
    (feats : List (List T)) (batch_data_samples : List (PoseDataSample T C)) :
    Except String (LossDict L A) := do
  let multi_stage_pred_heatmaps ← self.forward sem feats
  if batch_data_samples.isEmpty then
    throw "stack expects a non-empty TensorList"
  let gt_heatmaps : List T :=
    batch_data_samples.map (fun d => d.gt_heatmaps)
  let keypoint_weights : List (List Int) :=
    (batch_data_samples.map (fun d => d.keypoint_weights)).flatten
  let losses : LossDict L A :=
    loss_accumulate
      (fun i =>
        stage_loss_func self.loss_module i
          (multi_stage_pred_heatmaps.getD i []) gt_heatmaps keypoint_weights)
      self.num_stages
  match multi_stage_pred_heatmaps.getLast? with
  | none => throw "list index out of range"
  | some final_heatmaps =>
    let mask : List (List Bool) :=
      keypoint_weights.map (fun row => row.map (fun w => decide (0 < w)))
    let avg_acc := pose_pck_accuracy final_heatmaps gt_heatmaps mask
    pure (dictSet losses "acc_pose" (.float avg_acc))

/-- Modelled from the spec: `BaseHead.decode` (base class, not among the
sources) raises an unavailable-capability error when no decoder is bound,
and otherwise produces one keypoint-coordinate prediction result per input
sample, decoded from that sample's slice of the heatmap batch. -/
def CPMHead.decode (self : CPMHead T C L) (batch_heatmaps : List T)
    (batch_data_samples : List (PoseDataSample T C)) :
    Except String (List (PoseDataSample T C)) :=
  match self.decoder with
  | none => .error (decoderUnsetMsg "CPMHead")
  | some dec =>
    .ok ((batch_heatmaps.zip batch_data_samples).map
      (fun p => { p.2 with pred_instances := some (dec p.1) }))

/-- The body of the heatmap-retention loop in `CPMHead.predict`: since
`'pred_fileds'` (sic) is not a member, assign a fresh empty `PixelData` to
`pred_fields`, then store the heatmap slice in it; were the misspelled key
present with `pred_fields` unset, the attribute read would fail instead. -/
def store_heatmap (heatmaps : T) (data_sample : PoseDataSample T C) :
    Except String (PoseDataSample T C) :=
  let data_sample :=
    if data_sample.pred_fileds.isNone then
      { data_sample with pred_fields := some { heatmaps := none } }
    else
      data_sample
  match data_sample.pred_fields with
  | some pf =>
    .ok { data_sample with pred_fields := some { pf with heatmaps := some heatmaps } }
  | none => .error "AttributeError: pred_fields"

/-- `CPMHead.predict`: run `forward`, take the final stage's heatmap batch,
decode it into per-sample predictions, and when
`test_cfg.get('output_heatmaps', False)` store each sample's heatmap slice
in that sample's `pred_fields` (the samples beyond the zipped prefix are
returned unchanged, as the loop mutates `preds` in place). -/
def CPMHead.predict (self : CPMHead T C L) (sem : ModuleSem T)
    (feats : List (List T)) (batch_data_samples : List (PoseDataSample T C))
    (test_cfg : TestCfg) : Except String (List (PoseDataSample T C)) := do
  let multi_stage_batch_heatmaps ← self.forward sem feats
  match multi_stage_batch_heatmaps.getLast? with
  | none => throw "list index out of range"
  | some batch_heatmaps => do
    let preds ← self.decode batch_heatmaps batch_data_samples
    if test_cfg.output_heatmaps.getD false then
      let updated ← (batch_heatmaps.zip preds).mapM
        (fun p => store_heatmap p.1 p.2)
      pure (updated ++ preds.drop updated.length)
    else
      pure preds

/-- The total the accumulation loop of `CPMHead.loss` reaches after the
stages `0..n-1`, with `t i` the stage-`i` loss term: `none` before the first
stage binds the key, then the running left-to-right sum. -/
def stage_loss_total [Add L] (t : Nat → L) : Nat → Option L
  | 0 => none
  | n + 1 =>
    match stage_loss_total t n with
    | none => some (t n)
    | some x => some (x + t n)

/-- Extract the payload of a successful computation (fixture helper for the
concrete instantiations below). -/
def exceptOk (x : Except String α) (d : α) : α :=
  match x with
  | .ok a => a
  | .error _ => d

/-- Fixture: a head state used as the (never reached) fallback of
`exceptOk`. -/
def emptyHead : CPMHead Int Int Int :=
  { num_stages := 0
    in_channels := 0
    out_channels := 0
    loss_module := .single (fun _ _ _ => 0)
    decoder := none
    multi_deconv_layers := []
    multi_final_layers := [] }

/-- Fixture: a concrete loss evaluator on integer tensors. -/
def lossW : LossEvaluator Int Int :=
  fun p g w => (p.length : Int) + g.length + w.length

/-- Fixture: a stub loss evaluator returning the constant 5 per call. -/
def lossConst : LossEvaluator Int Int := fun _ _ _ => 5

/-- Fixture: a stub loss evaluator returning the constant 1 per call. -/
def lossOne : LossEvaluator Int Int := fun _ _ _ => 1

/-- Fixture: a stub loss evaluator returning the constant 2 per call. -/
def lossTwo : LossEvaluator Int Int := fun _ _ _ => 2

/-- Fixture: concrete layer semantics on integer per-sample tensors (every
built layer adds 1 to each sample, the 1x1 conv multiplies each sample by
its `out_channels`). -/
def semW : ModuleSem Int :=
  { layer := fun _ x => x.map (fun v => v + 1)
    conv := fun _ oc _ x => x.map (fun v => v * (oc : Int)) }

/-- Fixture: a two-stage head with one deconv layer per branch, final 1x1
convs and a bound decoder adding 100 to a sample's heatmap. -/
def headW : CPMHead Int Int Int :=
  exceptOk
    (CPMHead.__init__ 3 17 2 (some [4]) (some [4]) true (.single lossW)
      (some (fun t => t + 100)))
    emptyHead

/-- Fixture: like `headW` but without a bound decoder. -/
def headND : CPMHead Int Int Int :=
  exceptOk
    (CPMHead.__init__ 3 17 2 (some [4]) (some [4]) true (.single lossW) none)
    emptyHead

/-- Fixture: a three-stage head with identity branches and identity final
layers, whose shared loss evaluator is the constant stub `lossConst`. -/
def headConst : CPMHead Int Int Int :=
  exceptOk
    (CPMHead.__init__ 3 17 3 none none false (.single lossConst) none)
    emptyHead

/-- Fixture: a two-stage head with identity branches whose loss config is
the per-stage list `[lossOne, lossTwo]`. -/
def headPerStage : CPMHead Int Int Int :=
  exceptOk
    (CPMHead.__init__ 3 17 2 none none false (.list [lossOne, lossTwo]) none)
    emptyHead

/-- Fixture: a data sample with ground truth and no predictions. -/
def sampleW : PoseDataSample Int Int :=
  { gt_heatmaps := 7
    keypoint_weights := [[1, -2]]
    pred_instances := none
    pred_fields := none
    pred_fileds := none }

/-- Fixture: a concrete stand-in for the external `pose_pck_accuracy`. -/
def pckW : List Int → List Int → List (List Bool) → Int :=
  fun o t m => (o.length : Int) * 100 + t.length * 10 + m.length

/-! ### General helper lemmas -/

theorem exbind_ok (a : α) (f : α → Except ε β) :
    (Except.ok a >>= f : Except ε β) = f a := rfl

theorem exbind_error (e : ε) (f : α → Except ε β) :
    (Except.error e >>= f : Except ε β) = .error e := rfl

theorem getD_map_range (f : Nat → α) (d : α) {i n : Nat} (h : i < n) :
    ((List.range n).map f).getD i d = f i := by
  simp [List.getD_eq_getElem?_getD, List.getElem?_map, List.getElem?_range h]

theorem mapM_ok_of_forall {f : α → Except ε β} {g : α → β} :
    ∀ {l : List α}, (∀ a ∈ l, f a = .ok (g a)) → l.mapM f = .ok (l.map g) := by
  intro l
  induction l with
  | nil => intro _; rfl
  | cons a t ih =>
    intro h
    simp only [List.mapM_cons, h a (List.mem_cons_self a t),
      ih (fun b hb => h b (List.mem_cons_of_mem a hb)), exbind_ok]
    rfl

theorem mapM_error_of_ne_nil {x : Except ε β} {e : ε} (hx : x = .error e)
    {l : List α} (hl : l ≠ []) : l.mapM (fun _ => x) = .error e := by
  cases l with
  | nil => exact absurd rfl hl
  | cons a t => simp only [List.mapM_cons, hx, exbind_error]

theorem getElem?_zip_pair {l₁ : List α} {l₂ : List β} {i : Nat} :
    (l₁.zip l₂)[i]? =
      match l₁[i]?, l₂[i]? with
      | some a, some b => some (a, b)
      | _, _ => none := by
  rw [List.zip_eq_zipWith, List.getElem?_zipWith]
  cases l₁[i]? <;> cases l₂[i]? <;> rfl

theorem mem_zip_right {l₁ : List α} {l₂ : List β} (h : l₁.length = l₂.length)
    {b : β} (hb : b ∈ l₂) : ∃ p ∈ l₁.zip l₂, p.2 = b := by
  induction l₂ generalizing l₁ with
  | nil => cases hb
  | cons c t ih =>
    cases l₁ with
    | nil => simp at h
    | cons a s =>
      rcases List.mem_cons.mp hb with rfl | hb'
      · exact ⟨(a, b), by simp, rfl⟩
      · obtain ⟨p, hp, hpe⟩ := ih (by simpa using h) hb'
        exact ⟨p, by simp [hp], hpe⟩

/-! ### Structure of the built deconv branches -/

theorem _make_deconv_layers_loop_cons_good (cls : String)
    (oc k ic : Nat) (rest : List (Nat × Nat))
    (hk : k = 4 ∨ k = 3 ∨ k = 2) {e : String}
    (hrec : _make_deconv_layers_loop cls oc rest = .error e) :
    _make_deconv_layers_loop cls ic ((oc, k) :: rest) = .error e := by
  rcases hk with rfl | rfl | rfl <;>
    simp [_make_deconv_layers_loop, hrec]

theorem _make_deconv_layers_loop_error (cls : String) :
    ∀ (pairs : List (Nat × Nat)) (ic : Nat),
      (∃ p ∈ pairs, p.2 ∉ ([2, 3, 4] : List Nat)) →
      ∃ k, (∃ p ∈ pairs, p.2 = k) ∧ k ∉ ([2, 3, 4] : List Nat) ∧
        _make_deconv_layers_loop cls ic pairs =
          .error (unsupportedKernelMsg k cls) := by
  intro pairs
  induction pairs with
  | nil =>
    intro ic h
    rcases h with ⟨p, hp, _⟩
    cases hp
  | cons q rest ih =>
    intro ic h
    obtain ⟨oc, k⟩ := q
    by_cases hk : k ∈ ([2, 3, 4] : List Nat)
    · have hk' : k = 4 ∨ k = 3 ∨ k = 2 := by
        rcases List.mem_cons.mp hk with rfl | h2
        · exact Or.inr (Or.inr rfl)
        · rcases List.mem_cons.mp h2 with rfl | h3
          · exact Or.inr (Or.inl rfl)
          · rcases List.mem_cons.mp h3 with rfl | h4
            · exact Or.inl rfl
            · cases h4
      have hrest : ∃ p ∈ rest, p.2 ∉ ([2, 3, 4] : List Nat) := by
        rcases h with ⟨p, hp, hbad⟩
        rcases List.mem_cons.mp hp with rfl | hmem
        · exact absurd hk hbad
        · exact ⟨p, hmem, hbad⟩
      obtain ⟨k', hk'mem, hk'bad, hloop⟩ := ih oc hrest
      refine ⟨k', ?_, hk'bad,
        _make_deconv_layers_loop_cons_good cls oc k ic rest hk' hloop⟩
      obtain ⟨p', hp', he⟩ := hk'mem
      exact ⟨p', List.mem_cons_of_mem _ hp', he⟩
    · have hk4 : k ≠ 4 := fun hh => hk (by simp [hh])
      have hk3 : k ≠ 3 := fun hh => hk (by simp [hh])
      have hk2 : k ≠ 2 := fun hh => hk (by simp [hh])
      refine ⟨k, ⟨(oc, k), List.mem_cons_self _ _, rfl⟩, hk, ?_⟩
      simp [_make_deconv_layers_loop, hk4, hk3, hk2]

theorem _make_deconv_layers_loop_ok (cls : String) :
    ∀ (pairs : List (Nat × Nat)) (ic : Nat) (ls : List Layer),
      _make_deconv_layers_loop cls ic pairs = .ok ls →
      ∃ cfgs : List DeconvCfg,
        ls = (cfgs.map (fun c =>
          [Layer.deconv c, Layer.batchNorm2d c.out_channels,
            Layer.relu])).flatten ∧
        ∀ c ∈ cfgs, c.stride = 2 ∧
          ((c.kernel_size = 4 ∧ c.padding = 1 ∧ c.output_padding = 0) ∨
           (c.kernel_size = 3 ∧ c.padding = 1 ∧ c.output_padding = 1) ∨
           (c.kernel_size = 2 ∧ c.padding = 0 ∧ c.output_padding = 0)) := by
  intro pairs
  induction pairs with
  | nil =>
    intro ic ls h
    simp only [_make_deconv_layers_loop, Except.ok.injEq] at h
    exact ⟨[], by simp [h.symm], by simp⟩
  | cons q rest ih =>
    intro ic ls h
    obtain ⟨oc, k⟩ := q
    by_cases hk4 : k = 4
    · subst hk4
      cases hrec : _make_deconv_layers_loop cls oc rest with
      | error e => simp [_make_deconv_layers_loop, hrec] at h
      | ok tail =>
        simp only [_make_deconv_layers_loop] at h
        rw [hrec] at h
        simp at h
        obtain ⟨cfgs, hshape, hprop⟩ := ih oc tail hrec
        refine ⟨⟨ic, oc, 4, 2, 1, 0, false⟩ :: cfgs, ?_, ?_⟩
        · rw [← h, hshape]; simp
        · intro c hc
          rcases List.mem_cons.mp hc with rfl | hc'
          · exact ⟨rfl, Or.inl ⟨rfl, rfl, rfl⟩⟩
          · exact hprop c hc'
    · by_cases hk3 : k = 3
      · subst hk3
        cases hrec : _make_deconv_layers_loop cls oc rest with
        | error e => simp [_make_deconv_layers_loop, hrec] at h
        | ok tail =>
          simp only [_make_deconv_layers_loop] at h
          rw [hrec] at h
          simp at h
          obtain ⟨cfgs, hshape, hprop⟩ := ih oc tail hrec
          refine ⟨⟨ic, oc, 3, 2, 1, 1, false⟩ :: cfgs, ?_, ?_⟩
          · rw [← h, hshape]; simp
          · intro c hc
            rcases List.mem_cons.mp hc with rfl | hc'
            · exact ⟨rfl, Or.inr (Or.inl ⟨rfl, rfl, rfl⟩)⟩
            · exact hprop c hc'
      · by_cases hk2 : k = 2
        · subst hk2
          cases hrec : _make_deconv_layers_loop cls oc rest with
          | error e => simp [_make_deconv_layers_loop, hrec] at h
          | ok tail =>
            simp only [_make_deconv_layers_loop] at h
            rw [hrec] at h
            simp at h
            obtain ⟨cfgs, hshape, hprop⟩ := ih oc tail hrec
            refine ⟨⟨ic, oc, 2, 2, 0, 0, false⟩ :: cfgs, ?_, ?_⟩
            · rw [← h, hshape]; simp
            · intro c hc
              rcases List.mem_cons.mp hc with rfl | hc'
              · exact ⟨rfl, Or.inr (Or.inr ⟨rfl, rfl, rfl⟩)⟩
              · exact hprop c hc'
        · simp [_make_deconv_layers_loop, hk4, hk3, hk2] at h

/-! ### Reduction lemmas for `loss` and `__init__` -/

theorem expure (a : α) : (pure a : Except ε α) = .ok a := rfl

theorem loss_accumulate_eq [Add L] (t : Nat → L) :
    ∀ n : Nat, (loss_accumulate t n : LossDict L A) =
      match stage_loss_total t n with
      | none => []
      | some x => [("loss_kpt", LossVal.tensor x)] := by
  intro n
  induction n with
  | zero => rfl
  | succ n ih =>
    unfold loss_accumulate at ih ⊢
    rw [List.range_succ, List.foldl_append, ih]
    cases h : stage_loss_total t n with
    | none => simp [stage_loss_total, h, dictContains, dictSet]
    | some x =>
      simp [stage_loss_total, h, dictContains, dictSet, dictGet, lossvalAdd]

theorem CPMHead.loss_spec [Add L] [Inhabited L] (self : CPMHead T C L)
    (sem : ModuleSem T) (pck : List T → List T → List (List Bool) → A)
    (feats : List (List T)) (batch : List (PoseDataSample T C))
    (msph : List (List T)) (final_hm : List T) (total : L)
    (hfwd : self.forward sem feats = .ok msph)
    (hbatch : batch.isEmpty = false)
    (hlast : msph.getLast? = some final_hm)
    (htot : stage_loss_total (fun i =>
        stage_loss_func self.loss_module i (msph.getD i [])
          (batch.map (fun d => d.gt_heatmaps))
          ((batch.map (fun d => d.keypoint_weights)).flatten))
        self.num_stages = some total) :
    self.loss sem pck feats batch =
      .ok [("loss_kpt", LossVal.tensor total),
           ("acc_pose", LossVal.float (pck final_hm
             (batch.map (fun d => d.gt_heatmaps))
             (((batch.map (fun d => d.keypoint_weights)).flatten).map
               (fun row => row.map (fun w => decide (0 < w))))))] := by
  simp only [CPMHead.loss, hfwd, exbind_ok, hbatch, Bool.false_eq_true,
    if_false, expure, loss_accumulate_eq, htot, hlast]
  simp [dictSet, dictContains]

theorem __init___ok_inv
    {in_ch out_ch S : Nat} {docs dks : Option (List Nat)} {hfl : Bool}
    {lossCfg : MultiConfig (LossEvaluator T L)} {dec : Option (T → C)}
    {head : CPMHead T C L}
    (hinit : CPMHead.__init__ in_ch out_ch S docs dks hfl lossCfg dec =
      .ok head) :
    head.num_stages = S ∧ head.loss_module = MODELS.build lossCfg ∧
      head.decoder = dec ∧ head.in_channels = in_ch ∧
      head.out_channels = out_ch := by
  unfold CPMHead.__init__ at hinit
  cases h1 : lossLenCheck lossCfg S with
  | error e => rw [h1] at hinit; cases hinit
  | ok u =>
    rw [h1] at hinit
    simp only [exbind_ok] at hinit
    cases h2 : build_deconv_stages S in_ch docs dks with
    | error e => rw [h2] at hinit; cases hinit
    | ok p =>
      obtain ⟨mdl, ic2⟩ := p
      rw [h2] at hinit
      simp only [exbind_ok, expure, Except.ok.injEq] at hinit
      subst hinit
      exact ⟨rfl, rfl, rfl, rfl, rfl⟩

/-! ### Claim theorems -/

/-- C1: for every valid head configuration (a successful `__init__`) and
every `feats` of exactly `num_stages` feature maps, `forward` returns
exactly `num_stages` outputs and output `i` is the stage-`i` final layer
applied to the stage-`i` deconv branch applied to `feats[i]` — so each
stage reads only its own input feature map. -/
theorem spec_C1_forward_stagewise
    (in_ch out_ch S : Nat) (docs dks : Option (List Nat)) (hfl : Bool)
    (lossCfg : MultiConfig (LossEvaluator T L)) (dec : Option (T → C))
    (head : CPMHead T C L) (sem : ModuleSem T) (feats : List (List T))
    (hinit : CPMHead.__init__ in_ch out_ch S docs dks hfl lossCfg dec =
      .ok head)
    (hlen : feats.length = head.num_stages) :
    ∃ out, head.forward sem feats = .ok out ∧ out.length = head.num_stages ∧
      ∀ i, i < head.num_stages →
        out.getD i [] =
          TorchModule.run sem (head.multi_final_layers.getD i .identity)
            (TorchModule.run sem (head.multi_deconv_layers.getD i .identity)
              (feats.getD i [])) := by
  refine ⟨(List.range head.num_stages).map (fun i =>
      TorchModule.run sem (head.multi_final_layers.getD i .identity)
        (TorchModule.run sem (head.multi_deconv_layers.getD i .identity)
          (feats.getD i []))), ?_, ?_, ?_⟩
  · unfold CPMHead.forward
    rw [if_pos hlen]
  · simp
  · intro i hi
    exact getD_map_range _ _ hi

/-- C1 witness: the two-stage fixture head on a concrete two-stage input. -/
theorem spec_C1_witness :
    ∃ out, headW.forward semW [[0], [10]] = .ok out ∧
      out.length = headW.num_stages ∧
      ∀ i, i < headW.num_stages →
        out.getD i [] =
          TorchModule.run semW (headW.multi_final_layers.getD i .identity)
            (TorchModule.run semW (headW.multi_deconv_layers.getD i .identity)
              (([[0], [10]] : List (List Int)).getD i [])) :=
  spec_C1_forward_stagewise 3 17 2 (some [4]) (some [4]) true (.single lossW)
    (some (fun t => t + 100)) headW semW [[0], [10]] rfl rfl

/-- C5: `forward` on a feature sequence whose length differs from
`num_stages` (in either direction) fails with the assertion error naming
the head class, and produces no output. -/
theorem spec_C5_forward_length_assert (head : CPMHead T C L)
    (sem : ModuleSem T) (feats : List (List T))
    (h : feats.length ≠ head.num_stages) :
    head.forward sem feats = .error (forwardAssertMsg "CPMHead") := by
  unfold CPMHead.forward
  rw [if_neg h]

/-- C5 witness: one feature map offered to the two-stage fixture head. -/
theorem spec_C5_witness :
    headW.forward semW [[0]] = .error (forwardAssertMsg "CPMHead") :=
  spec_C5_forward_length_assert headW semW [[0]] (by decide)

/-- C6: construction with a per-stage loss list whose length differs from
`num_stages` fails with the configuration error naming both lengths. -/
theorem spec_C6_loss_list_mismatch
    (in_ch out_ch S : Nat) (docs dks : Option (List Nat)) (hfl : Bool)
    (l : List (LossEvaluator T L)) (dec : Option (T → C))
    (h : l.length ≠ S) :
    CPMHead.__init__ in_ch out_ch S docs dks hfl (.list l) dec =
      .error (lossLenMsg l.length S) := by
  have hc : (lossLenCheck (MultiConfig.list l) S : Except String Unit) =
      .error (lossLenMsg l.length S) := by
    simp [lossLenCheck, h]
  unfold CPMHead.__init__
  rw [hc, exbind_error]

/-- C6 witness: a one-element loss list with `num_stages = 2`. -/
theorem spec_C6_witness :
    (CPMHead.__init__ 3 17 2 none none true (.list [lossW]) none
      : Except String (CPMHead Int Int Int)) = .error (lossLenMsg 1 2) :=
  spec_C6_loss_list_mismatch 3 17 2 none none true [lossW] none (by decide)

/-- C3 counterexample: `deconv_kernel_sizes = [5]` contains a value outside
{2, 3, 4}, yet construction succeeds, because `deconv_out_channels` is
`None` and the kernel sizes are never inspected. -/
theorem spec_C3_counterexample :
    (CPMHead.__init__ 3 17 1 none (some [5]) true (.single lossW) none
      : Except String (CPMHead Int Int Int)).isOk = true ∧
    (5 : Nat) ∈ [5] ∧ (5 : Nat) ∉ ([2, 3, 4] : List Nat) :=
  ⟨rfl, by decide, by decide⟩

/-- C3 amended: when at least one stage is built, the loss-list check
passes, and `deconv_out_channels` is nonempty with the same length as
`deconv_kernel_sizes`, a kernel size outside {2, 3, 4} makes construction
fail with the configuration error naming an unsupported kernel size from
the list and the owning class name. -/
theorem spec_C3_amended
    (in_ch out_ch S : Nat) (ocs ks : List Nat) (hfl : Bool)
    (lossCfg : MultiConfig (LossEvaluator T L)) (dec : Option (T → C))
    (hS : 1 ≤ S) (hloss : lossLenCheck lossCfg S = .ok ())
    (hocs : ocs.isEmpty = false) (hlen : ocs.length = ks.length)
    (k : Nat) (hk : k ∈ ks) (hbad : k ∉ ([2, 3, 4] : List Nat)) :
    ∃ kk, kk ∈ ks ∧ kk ∉ ([2, 3, 4] : List Nat) ∧
      CPMHead.__init__ in_ch out_ch S (some ocs) (some ks) hfl lossCfg dec =
        .error (unsupportedKernelMsg kk "CPMHead") := by
  obtain ⟨p, hp, hpe⟩ := mem_zip_right hlen hk
  obtain ⟨kk, hkkmem, hkkbad, hloop⟩ :=
    _make_deconv_layers_loop_error "CPMHead" (ocs.zip ks) in_ch
      ⟨p, hp, hpe ▸ hbad⟩
  obtain ⟨q, hq, hqe⟩ := hkkmem
  have hkk_in_ks : kk ∈ ks := hqe ▸ (List.of_mem_zip hq).2
  have hmake : _make_deconv_layers "CPMHead" in_ch ocs ks =
      .error (unsupportedKernelMsg kk "CPMHead") := by
    unfold _make_deconv_layers
    rw [hloop, exbind_error]
  have hne : List.range S ≠ [] := by
    simp only [ne_eq, List.range_eq_nil]
    omega
  have hbuild : build_deconv_stages S in_ch (some ocs) (some ks) =
      .error (unsupportedKernelMsg kk "CPMHead") := by
    simp only [build_deconv_stages, hocs, Bool.false_eq_true, if_false, hlen,
      ne_eq, not_true_eq_false, mapM_error_of_ne_nil hmake hne, exbind_error]
  refine ⟨kk, hkk_in_ks, hkkbad, ?_⟩
  unfold CPMHead.__init__
  rw [hloss]
  simp only [exbind_ok]
  rw [hbuild, exbind_error]

/-- C3 witness for the amended claim: one stage, `deconv_out_channels=[8]`,
`deconv_kernel_sizes=[5]`. -/
theorem spec_C3_witness :
    ∃ kk, kk ∈ [5] ∧ kk ∉ ([2, 3, 4] : List Nat) ∧
      (CPMHead.__init__ 3 17 1 (some [8]) (some [5]) true (.single lossW) none
        : Except String (CPMHead Int Int Int)) =
        .error (unsupportedKernelMsg kk "CPMHead") :=
  spec_C3_amended 3 17 1 [8] [5] true (.single lossW) none (by decide) rfl
    rfl rfl 5 (by decide) (by decide)

/-! ### Reduction lemmas for `predict` -/

theorem decode_none (self : CPMHead T C L) (hdec : self.decoder = none)
    (batch_heatmaps : List T) (samples : List (PoseDataSample T C)) :
    self.decode batch_heatmaps samples = .error (decoderUnsetMsg "CPMHead") := by
  unfold CPMHead.decode
  rw [hdec]

theorem decode_some (self : CPMHead T C L) (dec : T → C)
    (hdec : self.decoder = some dec)
    (batch_heatmaps : List T) (samples : List (PoseDataSample T C)) :
    self.decode batch_heatmaps samples =
      .ok ((batch_heatmaps.zip samples).map
        (fun p => { p.2 with pred_instances := some (dec p.1) })) := by
  unfold CPMHead.decode
  rw [hdec]

theorem store_heatmap_eq (hm : T) (s : PoseDataSample T C)
    (h : s.pred_fileds = none) :
    store_heatmap hm s =
      .ok { s with pred_fields := some { heatmaps := some hm } } := by
  unfold store_heatmap
  simp [h]

theorem predict_reduce (self : CPMHead T C L) (sem : ModuleSem T)
    (feats : List (List T)) (samples : List (PoseDataSample T C))
    (cfg : TestCfg) (msph : List (List T)) (bh : List T)
    (hfwd : self.forward sem feats = .ok msph)
    (hlast : msph.getLast? = some bh) :
    self.predict sem feats samples cfg = (do
      let preds ← self.decode bh samples
      if cfg.output_heatmaps.getD false then do
        let updated ← (bh.zip preds).mapM (fun p => store_heatmap p.1 p.2)
        pure (updated ++ preds.drop updated.length)
      else
        pure preds) := by
  unfold CPMHead.predict
  rw [hfwd]
  simp only [exbind_ok, hlast]

theorem zip_self_zip :
    ∀ (l₁ : List α) (l₂ : List β),
      l₁.zip (l₁.zip l₂) = (l₁.zip l₂).map (fun p => (p.1, p)) := by
  intro l₁
  induction l₁ with
  | nil => intro l₂; rfl
  | cons a t ih =>
    intro l₂
    cases l₂ with
    | nil => rfl
    | cons b t₂ => simp [ih t₂]

theorem predict_true_spec (self : CPMHead T C L) (dec : T → C)
    (sem : ModuleSem T) (feats : List (List T))
    (samples : List (PoseDataSample T C)) (cfg : TestCfg)
    (msph : List (List T)) (bh : List T)
    (hdec : self.decoder = some dec)
    (hfwd : self.forward sem feats = .ok msph)
    (hlast : msph.getLast? = some bh)
    (hlen : bh.length = samples.length)
    (hfileds : ∀ s ∈ samples, s.pred_fileds = none)
    (hout : cfg.output_heatmaps.getD false = true) :
    self.predict sem feats samples cfg =
      .ok ((bh.zip samples).map (fun p =>
        { p.2 with
          pred_instances := some (dec p.1)
          pred_fields := some { heatmaps := some p.1 } })) := by
  rw [predict_reduce self sem feats samples cfg msph bh hfwd hlast,
    decode_some self dec hdec bh samples]
  simp only [exbind_ok, hout, if_true]
  have hstores : ∀ p ∈ bh.zip ((bh.zip samples).map
      (fun q => { q.2 with pred_instances := some (dec q.1) })),
      store_heatmap p.1 p.2 =
        .ok { p.2 with pred_fields := some { heatmaps := some p.1 } } := by
    intro p hp
    have hmem := (List.of_mem_zip hp).2
    obtain ⟨q, hq, hqe⟩ := List.mem_map.mp hmem
    have : p.2.pred_fileds = none := by
      rw [← hqe]
      exact hfileds q.2 (List.of_mem_zip hq).2
    exact store_heatmap_eq p.1 p.2 this
  rw [mapM_ok_of_forall hstores]
  simp only [exbind_ok]
  have hdrop : ((bh.zip samples).map
      (fun q => { q.2 with pred_instances := some (dec q.1) })).drop
      ((bh.zip ((bh.zip samples).map
        (fun q => { q.2 with pred_instances := some (dec q.1) }))).map
        (fun p => { p.2 with
          pred_fields := some { heatmaps := some p.1 } })).length = [] := by
    apply List.drop_eq_nil_of_le
    simp [List.length_zip, hlen]
  rw [hdrop, List.append_nil, expure]
  rw [List.zip_map_right, zip_self_zip bh samples, List.map_map,
    List.map_map]
  rfl

/-- C2: a successful `loss` call returns exactly the two entries
`loss_kpt` and `acc_pose`, in that order: `loss_kpt` is the running sum of
the `num_stages` per-stage loss terms, and `acc_pose` is the external
accuracy function applied to the final stage's prediction only, against the
shared ground truth, masked to the keypoints of positive weight — it is not
folded into `loss_kpt`. -/
theorem spec_C2_loss_keys_sum [Add L] [Inhabited L] (self : CPMHead T C L)
    (sem : ModuleSem T) (pck : List T → List T → List (List Bool) → A)
    (feats : List (List T)) (batch : List (PoseDataSample T C))
    (msph : List (List T)) (final_hm : List T) (total : L)
    (hfwd : self.forward sem feats = .ok msph)
    (hbatch : batch.isEmpty = false)
    (hlast : msph.getLast? = some final_hm)
    (htot : stage_loss_total (fun i =>
        stage_loss_func self.loss_module i (msph.getD i [])
          (batch.map (fun d => d.gt_heatmaps))
          ((batch.map (fun d => d.keypoint_weights)).flatten))
        self.num_stages = some total) :
    self.loss sem pck feats batch =
      .ok [("loss_kpt", LossVal.tensor total),
           ("acc_pose", LossVal.float (pck final_hm
             (batch.map (fun d => d.gt_heatmaps))
             (((batch.map (fun d => d.keypoint_weights)).flatten).map
               (fun row => row.map (fun w => decide (0 < w))))))] :=
  CPMHead.loss_spec self sem pck feats batch msph final_hm total hfwd hbatch
    hlast htot

/-- C2 witness: the three-stage fixture head with the constant stub
evaluator `lossConst` (c = 5); the accumulator equals `num_stages * c`. -/
theorem spec_C2_witness :
    (15 : Int) = 3 * 5 ∧
    headConst.loss semW pckW [[1], [2], [3]] [sampleW] =
      .ok [("loss_kpt", LossVal.tensor 15),
           ("acc_pose", LossVal.float (pckW [3] [7] [[true, false]]))] :=
  ⟨by decide,
   spec_C2_loss_keys_sum headConst semW pckW [[1], [2], [3]] [sampleW]
     [[1], [2], [3]] [3] 15 rfl rfl rfl rfl⟩

/-- C4: a single loss config is built into one evaluator shared by every
stage — each stage's loss term is computed by that same evaluator — while a
loss list of length `num_stages` is built into an `nn.Sequential` and stage
`i`'s term is computed by evaluator `i` of the list. -/
theorem spec_C4_loss_binding [Add L] [Inhabited L] :
    (∀ (in_ch out_ch S : Nat) (docs dks : Option (List Nat)) (hfl : Bool)
       (e : LossEvaluator T L) (dec : Option (T → C))
       (head : CPMHead T C L) (sem : ModuleSem T)
       (pck : List T → List T → List (List Bool) → A)
       (feats : List (List T)) (batch : List (PoseDataSample T C))
       (msph : List (List T)) (final_hm : List T) (total : L),
       CPMHead.__init__ in_ch out_ch S docs dks hfl (.single e) dec =
         .ok head →
       head.forward sem feats = .ok msph →
       batch.isEmpty = false →
       msph.getLast? = some final_hm →
       stage_loss_total (fun i => e (msph.getD i [])
           (batch.map (fun d => d.gt_heatmaps))
           ((batch.map (fun d => d.keypoint_weights)).flatten))
         head.num_stages = some total →
       head.loss sem pck feats batch =
         .ok [("loss_kpt", LossVal.tensor total),
              ("acc_pose", LossVal.float (pck final_hm
                (batch.map (fun d => d.gt_heatmaps))
                (((batch.map (fun d => d.keypoint_weights)).flatten).map
                  (fun row => row.map (fun w => decide (0 < w))))))]) ∧
    (∀ (in_ch out_ch S : Nat) (docs dks : Option (List Nat)) (hfl : Bool)
       (es : List (LossEvaluator T L)) (dec : Option (T → C))
       (head : CPMHead T C L) (sem : ModuleSem T)
       (pck : List T → List T → List (List Bool) → A)
       (feats : List (List T)) (batch : List (PoseDataSample T C))
       (msph : List (List T)) (final_hm : List T) (total : L),
       CPMHead.__init__ in_ch out_ch S docs dks hfl (.list es) dec =
         .ok head →
       head.forward sem feats = .ok msph →
       batch.isEmpty = false →
       msph.getLast? = some final_hm →
       stage_loss_total (fun i =>
           (es.getD i (fun _ _ _ => default)) (msph.getD i [])
             (batch.map (fun d => d.gt_heatmaps))
             ((batch.map (fun d => d.keypoint_weights)).flatten))
         head.num_stages = some total →
       head.loss sem pck feats batch =
         .ok [("loss_kpt", LossVal.tensor total),
              ("acc_pose", LossVal.float (pck final_hm
                (batch.map (fun d => d.gt_heatmaps))
                (((batch.map (fun d => d.keypoint_weights)).flatten).map
                  (fun row => row.map (fun w => decide (0 < w))))))]) := by
  constructor
  · intro in_ch out_ch S docs dks hfl e dec head sem pck feats batch msph
      final_hm total hinit hfwd hbatch hlast htot
    obtain ⟨-, hlm, -, -, -⟩ := __init___ok_inv hinit
    exact CPMHead.loss_spec head sem pck feats batch msph final_hm total
      hfwd hbatch hlast (by rw [hlm]; exact htot)
  · intro in_ch out_ch S docs dks hfl es dec head sem pck feats batch msph
      final_hm total hinit hfwd hbatch hlast htot
    obtain ⟨-, hlm, -, -, -⟩ := __init___ok_inv hinit
    exact CPMHead.loss_spec head sem pck feats batch msph final_hm total
      hfwd hbatch hlast (by rw [hlm]; exact htot)

/-- C4 witness: the shared-evaluator head (every stage uses `lossConst`)
and the per-stage head (stage 0 uses `lossOne`, stage 1 uses `lossTwo`). -/
theorem spec_C4_witness :
    headConst.loss semW pckW [[1], [2], [3]] [sampleW] =
      .ok [("loss_kpt", LossVal.tensor 15),
           ("acc_pose", LossVal.float (pckW [3] [7] [[true, false]]))] ∧
    headPerStage.loss semW pckW [[1], [2]] [sampleW] =
      .ok [("loss_kpt", LossVal.tensor 3),
           ("acc_pose", LossVal.float (pckW [2] [7] [[true, false]]))] :=
  ⟨spec_C4_loss_binding.1 3 17 3 none none false lossConst none headConst
     semW pckW [[1], [2], [3]] [sampleW] [[1], [2], [3]] [3] 15 rfl rfl rfl
     rfl rfl,
   spec_C4_loss_binding.2 3 17 2 none none false [lossOne, lossTwo] none
     headPerStage semW pckW [[1], [2]] [sampleW] [[1], [2]] [2] 3 rfl rfl
     rfl rfl rfl⟩

/-- C7: every successfully built branch is an `nn.Sequential` of
(deconv, batch-norm, ReLU) triples — each upsample step is followed by a
normalization and an activation — where every deconv layer uses stride 2
and the fixed lookup: kernel 4 gives padding 1 / output-padding 0, kernel 3
gives 1 / 1, kernel 2 gives 0 / 0. -/
theorem spec_C7_deconv_structure (cls : String) (ic : Nat)
    (ocs ks : List Nat) (m : TorchModule)
    (h : _make_deconv_layers cls ic ocs ks = .ok m) :
    ∃ cfgs : List DeconvCfg,
      m = .sequentialLayers ((cfgs.map (fun c =>
        [Layer.deconv c, Layer.batchNorm2d c.out_channels,
          Layer.relu])).flatten) ∧
      ∀ c ∈ cfgs, c.stride = 2 ∧
        ((c.kernel_size = 4 ∧ c.padding = 1 ∧ c.output_padding = 0) ∨
         (c.kernel_size = 3 ∧ c.padding = 1 ∧ c.output_padding = 1) ∨
         (c.kernel_size = 2 ∧ c.padding = 0 ∧ c.output_padding = 0)) := by
  unfold _make_deconv_layers at h
  cases hrec : _make_deconv_layers_loop cls ic (ocs.zip ks) with
  | error e => rw [hrec] at h; cases h
  | ok ls =>
    rw [hrec] at h
    simp only [exbind_ok, expure, Except.ok.injEq] at h
    obtain ⟨cfgs, hshape, hprop⟩ :=
      _make_deconv_layers_loop_ok cls (ocs.zip ks) ic ls hrec
    exact ⟨cfgs, by rw [← h, hshape], hprop⟩

/-- C7 witness: a branch with kernel sizes 3 and 2. -/
theorem spec_C7_witness :
    ∃ cfgs : List DeconvCfg,
      TorchModule.sequentialLayers
        [Layer.deconv ⟨3, 4, 3, 2, 1, 1, false⟩, Layer.batchNorm2d 4,
         Layer.relu, Layer.deconv ⟨4, 6, 2, 2, 0, 0, false⟩,
         Layer.batchNorm2d 6, Layer.relu] =
        .sequentialLayers ((cfgs.map (fun c =>
          [Layer.deconv c, Layer.batchNorm2d c.out_channels,
            Layer.relu])).flatten) ∧
      ∀ c ∈ cfgs, c.stride = 2 ∧
        ((c.kernel_size = 4 ∧ c.padding = 1 ∧ c.output_padding = 0) ∨
         (c.kernel_size = 3 ∧ c.padding = 1 ∧ c.output_padding = 1) ∨
         (c.kernel_size = 2 ∧ c.padding = 0 ∧ c.output_padding = 0)) :=
  spec_C7_deconv_structure "CPMHead" 3 [4, 6] [3, 2] _ rfl

/-- C8: without a bound decoder every (otherwise well-formed) `predict`
call fails with the unavailable-capability error instead of silently
skipping decoding; with a bound decoder, `predict` depends on the forward
outputs only through the final stage's heatmap batch. -/
theorem spec_C8_predict_decoder :
    (∀ (head : CPMHead T C L) (sem : ModuleSem T) (feats : List (List T))
       (samples : List (PoseDataSample T C)) (cfg : TestCfg)
       (msph : List (List T)) (bh : List T),
       head.decoder = none →
       head.forward sem feats = .ok msph →
       msph.getLast? = some bh →
       head.predict sem feats samples cfg =
         .error (decoderUnsetMsg "CPMHead")) ∧
    (∀ (head : CPMHead T C L) (sem sem' : ModuleSem T)
       (feats feats' : List (List T)) (samples : List (PoseDataSample T C))
       (cfg : TestCfg) (msph msph' : List (List T)) (bh : List T),
       head.forward sem feats = .ok msph →
       msph.getLast? = some bh →
       head.forward sem' feats' = .ok msph' →
       msph'.getLast? = some bh →
       head.predict sem feats samples cfg =
         head.predict sem' feats' samples cfg) := by
  constructor
  · intro head sem feats samples cfg msph bh hdec hfwd hlast
    rw [predict_reduce head sem feats samples cfg msph bh hfwd hlast,
      decode_none head hdec bh samples, exbind_error]
  · intro head sem sem' feats feats' samples cfg msph msph' bh h1 h2 h3 h4
    rw [predict_reduce head sem feats samples cfg msph bh h1 h2,
      predict_reduce head sem' feats' samples cfg msph' bh h3 h4]

/-- C8 witness: the decoder-less fixture head errors; the decoding fixture
head gives the same predictions for two inputs that differ only in the
non-final stage. -/
theorem spec_C8_witness :
    headND.predict semW [[0], [10]] [sampleW] ⟨none⟩ =
      .error (decoderUnsetMsg "CPMHead") ∧
    headW.predict semW [[0], [10]] [sampleW] ⟨none⟩ =
      headW.predict semW [[5], [10]] [sampleW] ⟨none⟩ :=
  ⟨spec_C8_predict_decoder.1 headND semW [[0], [10]] [sampleW] ⟨none⟩
     [[51], [221]] [221] rfl rfl rfl,
   spec_C8_predict_decoder.2 headW semW semW [[0], [10]] [[5], [10]]
     [sampleW] ⟨none⟩ [[51], [221]] [[136], [221]] [221] rfl rfl rfl rfl⟩

/-- C9: with `output_heatmaps` true, every result in the zipped range
carries its own sample's slice of the final stage's heatmap batch in
`pred_fields.heatmaps`, and its decoded coordinate prediction is exactly
the decoder's output on that slice (attaching the heatmap does not alter
it); with `output_heatmaps` false (or absent, the default), `predict`
returns the decoded results untouched, attaching no heatmap. -/
theorem spec_C9_output_heatmaps :
    (∀ (head : CPMHead T C L) (dec : T → C) (sem : ModuleSem T)
       (feats : List (List T)) (samples : List (PoseDataSample T C))
       (cfg : TestCfg) (msph : List (List T)) (bh : List T),
       head.decoder = some dec →
       head.forward sem feats = .ok msph →
       msph.getLast? = some bh →
       bh.length = samples.length →
       (∀ s ∈ samples, s.pred_fileds = none) →
       cfg.output_heatmaps.getD false = true →
       ∃ res, head.predict sem feats samples cfg = .ok res ∧
         res.length = samples.length ∧
         ∀ (i : Nat) (hm : T) (s₀ : PoseDataSample T C),
           bh[i]? = some hm → samples[i]? = some s₀ →
           res[i]? = some { s₀ with
             pred_instances := some (dec hm)
             pred_fields := some { heatmaps := some hm } }) ∧
    (∀ (head : CPMHead T C L) (dec : T → C) (sem : ModuleSem T)
       (feats : List (List T)) (samples : List (PoseDataSample T C))
       (cfg : TestCfg) (msph : List (List T)) (bh : List T),
       head.decoder = some dec →
       head.forward sem feats = .ok msph →
       msph.getLast? = some bh →
       cfg.output_heatmaps.getD false = false →
       head.predict sem feats samples cfg =
         .ok ((bh.zip samples).map (fun p =>
           { p.2 with pred_instances := some (dec p.1) }))) := by
  constructor
  · intro head dec sem feats samples cfg msph bh hdec hfwd hlast hlen
      hfileds hout
    refine ⟨_, predict_true_spec head dec sem feats samples cfg msph bh
      hdec hfwd hlast hlen hfileds hout, ?_, ?_⟩
    · simp [List.length_zip, hlen]
    · intro i hm s₀ hbh hs
      simp [List.getElem?_map, getElem?_zip_pair, hbh, hs]
  · intro head dec sem feats samples cfg msph bh hdec hfwd hlast hout
    rw [predict_reduce head sem feats samples cfg msph bh hfwd hlast,
      decode_some head dec hdec bh samples]
    simp only [exbind_ok, hout, Bool.false_eq_true, if_false, expure]

/-- C9 witness: the decoding fixture head with `output_heatmaps` set to
true and to false. -/
theorem spec_C9_witness :
    (∃ res, headW.predict semW [[0], [10]] [sampleW] ⟨some true⟩ =
       .ok res ∧
       res.length = [sampleW].length ∧
       ∀ (i : Nat) (hm : Int) (s₀ : PoseDataSample Int Int),
         ([221] : List Int)[i]? = some hm →
         [sampleW][i]? = some s₀ →
         res[i]? = some { s₀ with
           pred_instances := some (hm + 100)
           pred_fields := some { heatmaps := some hm } }) ∧
    headW.predict semW [[0], [10]] [sampleW] ⟨some false⟩ =
      .ok ((([221] : List Int).zip [sampleW]).map (fun p =>
        { p.2 with pred_instances := some (p.1 + 100) })) :=
  ⟨spec_C9_output_heatmaps.1 headW (fun t => t + 100) semW [[0], [10]]
     [sampleW] ⟨some true⟩ [[51], [221]] [221] rfl rfl rfl rfl
     (by simp [sampleW]) rfl,
   spec_C9_output_heatmaps.2 headW (fun t => t + 100) semW [[0], [10]]
     [sampleW] ⟨some false⟩ [[51], [221]] [221] rfl rfl rfl rfl⟩

/-- C10 (implicit): since the guard in `predict` tests the misspelled key
`pred_fileds` — absent on decoded results — the retention loop always
assigns a fresh empty `PixelData` to `pred_fields` before storing the
heatmap, so whatever `pred_fields` content a sample carried before the call
is overwritten and lost: the stored result is independent of it, and a
`predict` call on samples stripped of their `pred_fields` returns the very
same results. -/
theorem spec_C10_pred_fields_overwrite :
    (∀ (hm : T) (s : PoseDataSample T C), s.pred_fileds = none →
       store_heatmap hm s =
         .ok { s with pred_fields := some { heatmaps := some hm } } ∧
       ∀ pf, store_heatmap hm { s with pred_fields := pf } =
         store_heatmap hm s) ∧
    (∀ (head : CPMHead T C L) (dec : T → C) (sem : ModuleSem T)
       (feats : List (List T)) (samples : List (PoseDataSample T C))
       (cfg : TestCfg) (msph : List (List T)) (bh : List T),
       head.decoder = some dec →
       head.forward sem feats = .ok msph →
       msph.getLast? = some bh →
       bh.length = samples.length →
       (∀ s ∈ samples, s.pred_fileds = none) →
       cfg.output_heatmaps.getD false = true →
       head.predict sem feats samples cfg =
         head.predict sem feats
           (samples.map (fun s => { s with pred_fields := none })) cfg) := by
  constructor
  · intro hm s h
    refine ⟨store_heatmap_eq hm s h, ?_⟩
    intro pf
    rw [store_heatmap_eq hm s h,
      store_heatmap_eq hm { s with pred_fields := pf } (by simpa using h)]
  · intro head dec sem feats samples cfg msph bh hdec hfwd hlast hlen
      hfileds hout
    rw [predict_true_spec head dec sem feats samples cfg msph bh hdec hfwd
      hlast hlen hfileds hout]
    rw [predict_true_spec head dec sem feats
      (samples.map (fun s => { s with pred_fields := none })) cfg msph bh
      hdec hfwd hlast (by simpa using hlen) ?hf hout]
    case hf =>
      intro s hs
      obtain ⟨s₀, hs₀, rfl⟩ := List.mem_map.mp hs
      simpa using hfileds s₀ hs₀
    rw [List.zip_map_right, List.map_map]
    rfl

/-- C10 witness: a sample already carrying a heatmap in `pred_fields`
before the call. -/
theorem spec_C10_witness :
    (store_heatmap (9 : Int)
       ({ sampleW with pred_fields := some { heatmaps := some 4 } }
         : PoseDataSample Int Int) =
       .ok { sampleW with pred_fields := some { heatmaps := some 9 } } ∧
     ∀ pf, store_heatmap (9 : Int)
       { { sampleW with pred_fields := some { heatmaps := some 4 } } with
         pred_fields := pf } =
       store_heatmap 9
         { sampleW with pred_fields := some { heatmaps := some 4 } }) ∧
    headW.predict semW [[0], [10]]
      [{ sampleW with pred_fields := some { heatmaps := some 4 } }]
      ⟨some true⟩ =
      headW.predict semW [[0], [10]]
        ([{ sampleW with pred_fields := some { heatmaps := some 4 } }].map
          (fun s => { s with pred_fields := none })) ⟨some true⟩ :=
  ⟨(@spec_C10_pred_fields_overwrite Int Int Int).1 9
     { sampleW with pred_fields := some { heatmaps := some 4 } } rfl,
   (@spec_C10_pred_fields_overwrite Int Int Int).2 headW (fun t => t + 100) semW
     [[0], [10]] [{ sampleW with pred_fields := some { heatmaps := some 4 } }]
     ⟨some true⟩ [[51], [221]] [221] rfl rfl rfl rfl (by simp [sampleW]) rfl⟩
